import Mathlib

/-!
Verification of the Posture Coach repository: multiplexed sensor
acquisition (imu_reader.py), capture-row layout (data_collection.py),
feature columns (training.py), and the real-time mode/alert control loop
(deploy.py), shallowly embedded in Lean 4.

Python float values are modelled as rationals where only their identity is
propagated, and as real numbers for the trigonometric angle computation.
Python dicts keyed by segment-name strings are modelled as association
lists in insertion order (Python 3.7+ dicts preserve insertion order).
-/

namespace PostureCoach

/-! ## String helpers (Python `split` / `join` / `in`) -/

/-- Models Python `s.split(sep)` on a character list: splits at every
occurrence of `sep`, keeping empty pieces (`"".split` gives `[""]`). -/
def splitChar (sep : Char) : List Char → List (List Char)
  | [] => [[]]
  | c :: cs =>
    if c = sep then [] :: splitChar sep cs
    else
      match splitChar sep cs with
      | [] => [[c]]
      | t :: ts => (c :: t) :: ts

/-- Models Python `"_".join(parts)`. -/
def joinUnderscore : List String → String
  | [] => ""
  | [s] => s
  | s :: t :: rest => s ++ "_" ++ joinUnderscore (t :: rest)

/-- Models `col.split("_")` from deploy.py `predict_posture`. -/
def colParts (col : String) : List String :=
  (splitChar '_' col.data).map String.mk

/-- deploy.py line 212: `seg = "_".join(col.split("_")[:-1])`. -/
def colSeg (col : String) : String :=
  joinUnderscore (colParts col).dropLast

/-- deploy.py line 213: `angle = col.split("_")[-1]`
(`colParts` is never empty, so the default is never taken). -/
def colAngle (col : String) : String :=
  (colParts col).getLastD ""

/-- Contiguous-sublist test, modelling Python `needle in haystack`. -/
def subListOf (needle : List Char) : List Char → Bool
  | [] => needle.isEmpty
  | c :: cs => needle.isPrefixOf (c :: cs) || subListOf needle cs

/-! ## Data model: readings and snapshots -/

/-- One IMU reading: `{"pitch": ..., "roll": ...}` (imu_reader.py line 128). -/
structure AngleReading where
  pitch : ℚ
  roll : ℚ
deriving DecidableEq

/-- The dict returned by `read_all_imus`: segment name to reading-or-None,
in insertion order. -/
abbrev Snapshot : Type := List (String × Option AngleReading)

/-- Python `dict.get(key)`: `none` when the key is absent or its stored
value is `None`. -/
def dictGet (d : Snapshot) (k : String) : Option AngleReading :=
  match List.lookup k d with
  | some v => v
  | none => none

/-! ## Segment lists and feature columns -/

/-- `SEGMENTS` of data_collection.py (lines 31-42). -/
def SEGMENTS : List String :=
  ["left_thigh", "left_calf", "right_thigh", "right_calf", "upper_mid_back",
   "upper_back", "right_shoulder", "left_shoulder", "lower_mid_back", "lower_back"]

/-- `SEGMENTS` of training.py (lines 27-38), declared separately there. -/
def TRAIN_SEGMENTS : List String :=
  ["left_thigh", "left_calf", "right_thigh", "right_calf", "upper_mid_back",
   "upper_back", "right_shoulder", "left_shoulder", "lower_mid_back", "lower_back"]

/-- `CSV_HEADER` of data_collection.py (lines 44-48). -/
def CSV_HEADER : List String :=
  ["timestamp", "label"] ++ SEGMENTS.flatMap (fun seg => [seg ++ "_pitch", seg ++ "_roll"])

/-- `FEATURE_COLS` of training.py (lines 40-44); recorded in the model
artifact and read back by deploy.py `load_model`. -/
def FEATURE_COLS : List String :=
  TRAIN_SEGMENTS.flatMap (fun seg => [seg ++ "_pitch", seg ++ "_roll"])

/-! ## imu_reader.py: multiplexer, per-sensor reads, read_all_imus -/

/-- `TCA_CHANNEL_MAP` (imu_reader.py lines 27-36). -/
def TCA_CHANNEL_MAP : List (Nat × String) :=
  [(0, "left_thigh"), (1, "left_calf"), (2, "right_calf"), (3, "right_thigh"),
   (4, "upper_mid_back"), (5, "upper_back"), (6, "right_shoulder"), (7, "left_shoulder")]

/-- `DIRECT_ADDRESS_MAP` (imu_reader.py lines 38-41): 0x68 and 0x69. -/
def DIRECT_ADDRESS_MAP : List (Nat × String) :=
  [(104, "lower_mid_back"), (105, "lower_back")]

/-- Identifies one physical sensor: a TCA channel or a direct I2C address. -/
abbrev SensorId : Type := Nat ⊕ Nat

/-- The ten sensors paired with their segment names, in `read_all_imus`
iteration order. -/
def SENSOR_SEGMENT_LIST : List (SensorId × String) :=
  TCA_CHANNEL_MAP.map (fun p => (Sum.inl p.1, p.2))
    ++ DIRECT_ADDRESS_MAP.map (fun p => (Sum.inr p.1, p.2))

/-- The ten sensor ids in `read_all_imus` iteration order. -/
def SENSOR_IDS : List SensorId := SENSOR_SEGMENT_LIST.map Prod.fst

/-- The outcome of attempting one sensor read. `ok r` means every operation
in the `try` body succeeded and the computed-and-rounded reading is `r`;
the `fail*` constructors name the statement whose exception was caught. -/
inductive ReadOutcome where
  | ok (r : AngleReading)
  | failSelect
  | failRead
deriving DecidableEq

/-- An operation on the shared I2C bus, as far as the TCA9548A multiplexer
is concerned. `muxWrite b` is `bus.write_byte(TCA_ADDRESS, b)`. -/
inductive BusOp where
  | muxWrite (byte : Nat)
  | sensorRead (channel : Nat)
deriving DecidableEq

/-- `read_tca_imu` (imu_reader.py lines 115-132): select the channel
(write `1 << channel`), read the sensor, close all channels (write 0),
return the reading; on any exception the `except` branch still closes all
channels and returns `None`. The returned pair is (bus trace, result). -/
def readTcaImu (channel : Nat) (o : ReadOutcome) : List BusOp × Option AngleReading :=
  match o with
  | .ok r => ([.muxWrite (1 <<< channel), .sensorRead channel, .muxWrite 0], some r)
  | .failSelect => ([.muxWrite 0], none)
  | .failRead => ([.muxWrite (1 <<< channel), .muxWrite 0], none)

/-- `read_direct_imu` (imu_reader.py lines 135-149): no channel switch,
result only. -/
def readDirectImu (_address : Nat) (o : ReadOutcome) : Option AngleReading :=
  match o with
  | .ok r => some r
  | _ => none

/-- The reading a read attempt yields: the computed angles on success,
`None` on any caught failure. -/
def resultOf : ReadOutcome → Option AngleReading
  | .ok r => some r
  | _ => none

/-- `read_all_imus` (imu_reader.py lines 156-181), parametrised by the
outcome `env` of each physical sensor's read attempt: the eight TCA
segments in channel order, then the two direct segments. -/
def readAllImus (env : SensorId → ReadOutcome) : Snapshot :=
  TCA_CHANNEL_MAP.map (fun p => (p.2, (readTcaImu p.1 (env (Sum.inl p.1))).2))
    ++ DIRECT_ADDRESS_MAP.map (fun p => (p.2, readDirectImu p.1 (env (Sum.inr p.1))))

/-- The multiplexer's control register after a list of bus operations:
each `muxWrite b` replaces its value with `b`. -/
def muxStateAfter (s : Nat) : List BusOp → Nat
  | [] => s
  | .muxWrite b :: rest => muxStateAfter b rest
  | .sensorRead _ :: rest => muxStateAfter s rest

/-! ## deploy.py predict_posture: row assembly -/

/-- Python `angles[angle]` on the reading dict: defined for the two keys
the dict holds (a `KeyError` on any other key is modelled as `none`). -/
def angleGet (a : AngleReading) (key : String) : Option ℚ :=
  if key = "pitch" then some a.pitch
  else if key = "roll" then some a.roll
  else none

/-- One iteration of the `for col in feature_cols` loop of
`predict_posture` (deploy.py lines 210-218): split the column name,
fetch the segment's reading, pick the named angle. -/
def colValue (readings : Snapshot) (col : String) : Option ℚ :=
  match dictGet readings (colSeg col) with
  | none => none
  | some angles => angleGet angles (colAngle col)

/-- The whole row-assembly loop of `predict_posture`: the ordered list of
feature values, or `none` as soon as any sensor read failed. -/
def buildRow (readings : Snapshot) : List String → Option (List ℚ)
  | [] => some []
  | col :: rest =>
    match colValue readings col, buildRow readings rest with
    | some v, some r => some (v :: r)
    | _, _ => none

/-! ## data_collection.py: capture rows and CSV sessions -/

/-- One CSV cell: a number, a string, or Python `None`. -/
inductive Cell where
  | num (q : ℚ)
  | str (s : String)
  | null
deriving DecidableEq

/-- The two cells one segment contributes to a capture row
(data_collection.py lines 95-102): pitch then roll, or `None, None`. -/
def segmentCells (readings : Snapshot) (seg : String) : List Cell :=
  match dictGet readings seg with
  | some angles => [.num angles.pitch, .num angles.roll]
  | none => [.null, .null]

/-- One capture row (data_collection.py lines 93-102): timestamp, label,
then pitch/roll per segment in `SEGMENTS` order. -/
def captureRow (timestamp : ℚ) (label : String) (readings : Snapshot) : List Cell :=
  [.num timestamp, .str label] ++ SEGMENTS.flatMap (segmentCells readings)

/-- The CSV header as a row of cells. -/
def headerRow : List Cell := CSV_HEADER.map Cell.str

/-- The CSV file's state: `none` when the file does not exist. -/
abbrev CsvFile : Type := Option (List (List Cell))

/-- `write_header_if_needed` (data_collection.py lines 55-61): creates the
file with the header row only when it does not exist yet. -/
def writeHeaderIfNeeded (file : CsvFile) : CsvFile :=
  match file with
  | some rows => some rows
  | none => some [headerRow]

/-- `append_row` (data_collection.py lines 64-68): append mode creates the
file when missing. -/
def appendRow (file : CsvFile) (row : List Cell) : CsvFile :=
  match file with
  | some rows => some (rows ++ [row])
  | none => some [row]

/-- `capture_session` (data_collection.py lines 75-108) restricted to its
file effect: write the header if the file is missing, then append one row
per sample `(timestamp, snapshot)`. -/
def captureSession (file : CsvFile) (label : String)
    (samples : List (ℚ × Snapshot)) : CsvFile :=
  samples.foldl (fun f s => appendRow f (captureRow s.1 label s.2))
    (writeHeaderIfNeeded file)

/-- The sequence of rows `capture_session` writes, in order: the header
first when and only when the file did not exist, then the data rows. -/
def sessionWrites (file : CsvFile) (label : String)
    (samples : List (ℚ × Snapshot)) : List (List Cell) :=
  (match file with
   | none => [headerRow]
   | some _ => [])
    ++ samples.map (fun s => captureRow s.1 label s.2)

/-! ## deploy.py: alert engine (continuous_mode) -/

/-- `COOLDOWN_SEC` (deploy.py line 45). -/
def COOLDOWN_SEC : ℚ := 60

/-- `is_good = "good" in label` (deploy.py lines 244 and 285). -/
def isGoodLabel (label : String) : Bool :=
  subListOf "good".data label.data

/-- The alert decision of one `continuous_mode` iteration (deploy.py lines
285-294): `(beeped, new last_alert)`. Beeps exactly when the label is not
good and `now - last_alert >= COOLDOWN_SEC`; beeping sets
`last_alert = now`, otherwise `last_alert` is unchanged. -/
def alertStep (label : String) (now lastAlert : ℚ) : Bool × ℚ :=
  if isGoodLabel label = false ∧ COOLDOWN_SEC ≤ now - lastAlert
  then (true, now)
  else (false, lastAlert)

/-- The timestamps at which `continuous_mode` beeps when the successive
classifications are `events` (each a time/label pair) and the last-alert
timestamp starts at `lastAlert` (it is reset to `0.0` on entering the
mode, deploy.py line 265). -/
def runAlerts : List (ℚ × String) → ℚ → List ℚ
  | [], _ => []
  | (now, label) :: rest, lastAlert =>
    if isGoodLabel label = false ∧ COOLDOWN_SEC ≤ now - lastAlert
    then now :: runAlerts rest now
    else runAlerts rest lastAlert

/-! ## deploy.py: mode controller -/

/-- `ModeState`: the LCD menu (cursor `false` = A "Check Now", `true` = B
"Continuous"), a one-shot check, or continuous monitoring. -/
inductive Mode where
  | menu (cursor : Bool)
  | checking
  | monitoring
deriving DecidableEq

/-- The events the control loop of deploy.py reacts to. `checkDone ok`
is `check_now` finishing (`ok = false` on sensor failure); `monTick sel r`
is one `continuous_mode` iteration (`sel` = select button pressed, `r` =
`predict_posture` result, unused when `sel` is true). -/
inductive MCEvent where
  | nav
  | sel
  | checkDone (ok : Bool)
  | monTick (selPressed : Bool) (result : Option String)
deriving DecidableEq

/-- The mode controller's step function, from `run_lcd_menu` (deploy.py
lines 165-190), `check_now` + `main` (lines 230-252, 329-337) and
`continuous_mode` (lines 270-296). `none` means the event cannot occur in
that state. After `check_now` or `continuous_mode` returns, `main` calls
`run_lcd_menu` again, which restarts with `cursor = 0` (line 175). -/
def modeStep : Mode → MCEvent → Option Mode
  | .menu c, .nav => some (.menu (!c))
  | .menu c, .sel => some (if c then .monitoring else .checking)
  | .checking, .checkDone _ => some (.menu false)
  | .monitoring, .monTick true _ => some (.menu false)
  | .monitoring, .monTick false _ => some .monitoring
  | _, _ => none

/-! ## Theorems -/

/-- Every beep timestamp is at least one cooldown after the last-alert
value the run started from. -/
lemma runAlerts_ge (events : List (ℚ × String)) :
    ∀ lastAlert t, t ∈ runAlerts events lastAlert → lastAlert + COOLDOWN_SEC ≤ t := by
  induction events with
  | nil => intro l t ht; simp [runAlerts] at ht
  | cons e rest ih =>
    obtain ⟨now, label⟩ := e
    intro l t ht
    simp only [runAlerts] at ht
    have hC : (0 : ℚ) ≤ COOLDOWN_SEC := by norm_num [COOLDOWN_SEC]
    by_cases hc : isGoodLabel label = false ∧ COOLDOWN_SEC ≤ now - l
    · rw [if_pos hc] at ht
      rcases List.mem_cons.mp ht with rfl | hmem
      · linarith [hc.2]
      · have := ih now t hmem
        linarith [hc.2]
    · rw [if_neg hc] at ht
      exact ih l t ht

/-- Successive beeps are at least one cooldown apart. -/
lemma runAlerts_pairwise (events : List (ℚ × String)) :
    ∀ lastAlert, (runAlerts events lastAlert).Pairwise (fun s t => s + COOLDOWN_SEC ≤ t) := by
  induction events with
  | nil => intro l; simp [runAlerts]
  | cons e rest ih =>
    obtain ⟨now, label⟩ := e
    intro l
    simp only [runAlerts]
    split
    · exact List.Pairwise.cons (fun t ht => runAlerts_ge rest now t ht) (ih now)
    · exact ih l

/-- A list whose pairs all satisfy `R` has at most one element satisfying
`p` when `R` forbids two `p`-elements. -/
lemma countP_le_one_of_pairwise {α} (p : α → Bool) (R : α → α → Prop) :
    ∀ l : List α, l.Pairwise R →
      (∀ x y, R x y → p x = true → p y = true → False) → l.countP p ≤ 1 := by
  intro l
  induction l with
  | nil => intro _ _; simp
  | cons a t ih =>
    intro hp hinc
    rcases List.pairwise_cons.mp hp with ⟨ha, ht⟩
    rw [List.countP_cons]
    by_cases hpa : p a = true
    · have h0 : t.countP p = 0 := by
        rw [List.countP_eq_zero]
        intro b hb hpb
        exact hinc a b (ha b hb) hpa hpb
      simp [h0, hpa]
    · simp only [if_neg hpa, Nat.add_zero]
      exact ih ht hinc

/-- C1: in continuous monitoring the alert emitter beeps exactly when the
label is not good and at least the cooldown has elapsed since the
last-alert timestamp; beeping sets the timestamp to the current time, a
good classification never beeps and never changes the timestamp, and as a
consequence every window shorter than the cooldown contains at most one
beep, for every sequence of classification times. -/
theorem alert_gate_and_cooldown :
    (∀ label now lastAlert,
        (alertStep label now lastAlert).1 = true
          ↔ (isGoodLabel label = false ∧ COOLDOWN_SEC ≤ now - lastAlert))
    ∧ (∀ label now lastAlert, (alertStep label now lastAlert).1 = true →
        (alertStep label now lastAlert).2 = now)
    ∧ (∀ label now lastAlert, isGoodLabel label = true →
        alertStep label now lastAlert = (false, lastAlert))
    ∧ (∀ events lastAlert0 a w, w < COOLDOWN_SEC →
        ((runAlerts events lastAlert0).countP fun t => decide (a ≤ t ∧ t < a + w)) ≤ 1) := by
  refine ⟨?_, ?_, ?_, ?_⟩
  · intro label now lastAlert
    unfold alertStep
    split
    · rename_i hcond
      exact iff_of_true rfl hcond
    · rename_i hcond
      exact iff_of_false (by simp) hcond
  · intro label now lastAlert h
    unfold alertStep at h ⊢
    by_cases hc : isGoodLabel label = false ∧ COOLDOWN_SEC ≤ now - lastAlert
    · rw [if_pos hc]
    · rw [if_neg hc] at h
      simp at h
  · intro label now lastAlert h
    unfold alertStep
    have hc : ¬(isGoodLabel label = false ∧ COOLDOWN_SEC ≤ now - lastAlert) := by
      rintro ⟨hbad, -⟩
      rw [h] at hbad
      exact absurd hbad (by simp)
    rw [if_neg hc]
  · intro events lastAlert0 a w hw
    refine countP_le_one_of_pairwise _ (fun s t => s + COOLDOWN_SEC ≤ t) _
      (runAlerts_pairwise events lastAlert0) ?_
    intro x y hR hx hy
    rw [decide_eq_true_eq] at hx hy
    linarith [hx.1, hx.2, hy.1, hy.2]

/-- C1 applied: with cooldown 60, the window `[0, 59)` of the run
bad@0, bad@30, bad@61 from last-alert 0 contains at most one beep. -/
theorem alert_gate_and_cooldown_app :
    ((runAlerts [((0 : ℚ), "sitting_bad"), (30, "sitting_bad"), (61, "sitting_bad")] 0).countP
        fun t => decide ((0 : ℚ) ≤ t ∧ t < 0 + 59)) ≤ 1 :=
  alert_gate_and_cooldown.2.2.2
    [((0 : ℚ), "sitting_bad"), (30, "sitting_bad"), (61, "sitting_bad")] 0 0 59
    (by norm_num [COOLDOWN_SEC])

/-- C2 fails on the code: with the last-alert timestamp reset to `0.0` and
cooldown 60, bad-posture classifications at simulated times t=0 and t=30
emit no alert at all (`0 - 0.0 < 60`), not one alert at t=0. -/
theorem reset_scenario_counterexample :
    runAlerts [((0 : ℚ), "sitting_bad"), ((30 : ℚ), "sitting_bad")] 0 = [] := by
  have hbad : isGoodLabel "sitting_bad" = false := rfl
  norm_num [runAlerts, hbad, COOLDOWN_SEC]

/-- C2 amended: in the same scenario the only alert of the whole run
bad@0, bad@30, bad@61 is the one at t=61, when `61 - 0.0 >= 60` first
holds. -/
theorem reset_scenario_amended :
    runAlerts [((0 : ℚ), "sitting_bad"), ((30 : ℚ), "sitting_bad"),
      ((61 : ℚ), "sitting_bad")] 0 = [61] := by
  have hbad : isGoodLabel "sitting_bad" = false := rfl
  norm_num [runAlerts, hbad, COOLDOWN_SEC]

/-- C6: every multiplexed sensor read opens its channel by writing the
single-bit byte `1 << channel`, then reads, then closes all channels by
writing zero; the close is the last bus write on every path out of the
read, failures included, so the multiplexer ends closed whatever its
starting state. -/
theorem mux_open_read_close :
    (∀ channel r, (readTcaImu channel (.ok r)).1
        = [.muxWrite (1 <<< channel), .sensorRead channel, .muxWrite 0])
    ∧ (∀ channel, 1 <<< channel = 2 ^ channel)
    ∧ (∀ channel o, ((readTcaImu channel o).1).getLast? = some (.muxWrite 0))
    ∧ (∀ channel o s, muxStateAfter s (readTcaImu channel o).1 = 0) := by
  refine ⟨fun _ _ => rfl, fun c => by rw [Nat.shiftLeft_eq, one_mul], ?_, ?_⟩
  · intro c o
    cases o <;> rfl
  · intro c o s
    cases o <;> rfl

/-- The result component of a multiplexed read is determined by the
outcome alone. -/
lemma readTca_snd (channel : Nat) (o : ReadOutcome) :
    (readTcaImu channel o).2 = resultOf o := by
  cases o <;> rfl

/-- The result of a direct read is determined by the outcome alone. -/
lemma readDirect_eq (address : Nat) (o : ReadOutcome) :
    readDirectImu address o = resultOf o := by
  cases o <;> rfl

/-- `read_all_imus` as one map over the sensor/segment list. -/
lemma readAll_eq_map (env : SensorId → ReadOutcome) :
    readAllImus env = SENSOR_SEGMENT_LIST.map (fun q => (q.2, resultOf (env q.1))) := by
  simp [readAllImus, SENSOR_SEGMENT_LIST, TCA_CHANNEL_MAP, DIRECT_ADDRESS_MAP,
    readTca_snd, readDirect_eq]

/-- A list on which `p` holds exactly at the element mapped to `k` (with
the images nodup) has `countP p = 1`. -/
lemma countP_eq_one_of {α β : Type} [DecidableEq β] :
    ∀ (l : List α) (f : α → β) (p : α → Bool) (k : β),
      (l.map f).Nodup → k ∈ l.map f →
      (∀ x ∈ l, (p x = true ↔ f x = k)) → l.countP p = 1 := by
  intro l
  induction l with
  | nil =>
    intro f p k _ hk _
    simp at hk
  | cons a t ih =>
    intro f p k hnd hk hiff
    rw [List.countP_cons]
    rw [List.map_cons] at hnd hk
    rcases List.nodup_cons.mp hnd with ⟨hfa, hndt⟩
    by_cases hak : f a = k
    · have hpa : p a = true := (hiff a (by simp)).mpr hak
      have h0 : t.countP p = 0 := by
        rw [List.countP_eq_zero]
        intro b hb hpb
        have hbk : f b = k := (hiff b (by simp [hb])).mp hpb
        exact hfa ((hak.trans hbk.symm) ▸ List.mem_map_of_mem f hb)
      simp [hpa, h0]
    · have hpa : ¬p a = true := fun h => hak ((hiff a (by simp)).mp h)
      have hk' : k ∈ t.map f := by
        rcases List.mem_cons.mp hk with h | h
        · exact absurd h.symm hak
        · exact h
      rw [if_neg hpa, Nat.add_zero]
      exact ih f p k hndt hk' (fun x hx => hiff x (by simp [hx]))

/-- In any snapshot-shaped list the some- and none-counts add to the
length. -/
lemma countP_isSome_add_isNone (l : List (String × Option AngleReading)) :
    (l.countP fun q => q.2.isSome) + (l.countP fun q => q.2.isNone) = l.length := by
  induction l with
  | nil => rfl
  | cons a t ih =>
    cases h : a.2 <;> simp [List.countP_cons, h] <;> omega

/-- C5: for every pattern of per-sensor outcomes, the snapshot has one
entry per segment, in the fixed read order; the entry of every sensor
other than a changed one is unchanged (one failure never affects the other
nine reads); and with exactly one failing sensor the snapshot has exactly
one `None` entry and nine readings. -/
theorem read_all_failure_isolation :
    (∀ env, (readAllImus env).map Prod.fst
        = ["left_thigh", "left_calf", "right_calf", "right_thigh", "upper_mid_back",
           "upper_back", "right_shoulder", "left_shoulder", "lower_mid_back", "lower_back"])
    ∧ (∀ env env' (k : SensorId), (∀ j, j ≠ k → env j = env' j) →
        ∀ q ∈ SENSOR_SEGMENT_LIST, q.1 ≠ k →
          List.lookup q.2 (readAllImus env) = List.lookup q.2 (readAllImus env'))
    ∧ (∀ env (k : SensorId), k ∈ SENSOR_IDS → resultOf (env k) = none →
        (∀ j ∈ SENSOR_IDS, j ≠ k → resultOf (env j) ≠ none) →
        ((readAllImus env).countP fun q => q.2.isNone) = 1
          ∧ ((readAllImus env).countP fun q => q.2.isSome) = 9) := by
  refine ⟨fun env => rfl, ?_, ?_⟩
  · intro env env' k hk q hq hqk
    rw [readAll_eq_map, readAll_eq_map]
    fin_cases hq <;>
      simp_all [SENSOR_SEGMENT_LIST, TCA_CHANNEL_MAP, DIRECT_ADDRESS_MAP, List.lookup]
  · intro env k hk h1 h2
    have hone : ((readAllImus env).countP fun q => q.2.isNone) = 1 := by
      rw [readAll_eq_map, List.countP_map]
      refine countP_eq_one_of SENSOR_SEGMENT_LIST Prod.fst _ k ?_ hk ?_
      · decide
      · intro x hx
        constructor
        · intro hnone
          by_contra hne
          exact h2 x.1 (List.mem_map_of_mem Prod.fst hx) hne
            (Option.isNone_iff_eq_none.mp (by simpa using hnone))
        · intro hxk
          simp [Function.comp, hxk, h1]
    refine ⟨hone, ?_⟩
    have hadd := countP_isSome_add_isNone (readAllImus env)
    have hlen : (readAllImus env).length = 10 := rfl
    omega

/-- C5 applied: when exactly the sensor on TCA channel 2 fails, the
snapshot has exactly one `None` entry and nine readings. -/
theorem read_all_failure_isolation_app :
    ((readAllImus fun j => if j = Sum.inl 2 then .failRead else .ok ⟨1, 2⟩).countP
        fun q => q.2.isNone) = 1
      ∧ ((readAllImus fun j => if j = Sum.inl 2 then .failRead else .ok ⟨1, 2⟩).countP
        fun q => q.2.isSome) = 9 :=
  read_all_failure_isolation.2.2
    (fun j => if j = Sum.inl 2 then .failRead else .ok ⟨1, 2⟩) (Sum.inl 2)
    (by simp [SENSOR_IDS, SENSOR_SEGMENT_LIST, TCA_CHANNEL_MAP, DIRECT_ADDRESS_MAP])
    (by rfl)
    (by intro j hj hne
        simp only [SENSOR_IDS, SENSOR_SEGMENT_LIST, TCA_CHANNEL_MAP, DIRECT_ADDRESS_MAP] at hj
        fin_cases hj <;> simp_all [resultOf])

/-- Splitting `s ++ "_" ++ a` on underscores and rejoining all tokens but
the last recovers `s` and `a` for every segment name and angle name. -/
lemma colSeg_colAngle (s a : String) (hs : s ∈ SEGMENTS)
    (ha : a = "pitch" ∨ a = "roll") :
    colSeg (s ++ "_" ++ a) = s ∧ colAngle (s ++ "_" ++ a) = a := by
  rcases ha with rfl | rfl <;> fin_cases hs <;> decide

/-- C10: for every segment name in the fixed list (underscores included)
and each angle, the column name `seg_angle` parses back to exactly that
segment and angle; every feature column the artifact records is of this
shape; hence the per-column lookup of `predict_posture` reads the intended
segment's intended angle. -/
theorem feature_col_parse_correct :
    (∀ s a, s ∈ SEGMENTS → (a = "pitch" ∨ a = "roll") →
        colSeg (s ++ "_" ++ a) = s ∧ colAngle (s ++ "_" ++ a) = a)
    ∧ (∀ col ∈ FEATURE_COLS, ∃ s ∈ SEGMENTS, ∃ a ∈ (["pitch", "roll"] : List String),
        col = s ++ "_" ++ a ∧ colSeg col = s ∧ colAngle col = a)
    ∧ (∀ rd s a, s ∈ SEGMENTS → (a = "pitch" ∨ a = "roll") →
        colValue rd (s ++ "_" ++ a) = (dictGet rd s).bind fun ang => angleGet ang a) := by
  refine ⟨colSeg_colAngle, ?_, ?_⟩
  · decide
  · intro rd s a hs ha
    obtain ⟨h1, h2⟩ := colSeg_colAngle s a hs ha
    unfold colValue
    rw [h1, h2]
    cases dictGet rd s <;> rfl

/-- C10 applied: the `left_thigh_roll` slot is filled from the left-thigh
reading's roll. -/
theorem feature_col_parse_correct_app :
    colValue [("left_thigh", some ⟨(5 : ℚ), 7⟩)] ("left_thigh" ++ "_" ++ "roll")
      = (dictGet [("left_thigh", some ⟨(5 : ℚ), 7⟩)] "left_thigh").bind
          fun ang => angleGet ang "roll" :=
  feature_col_parse_correct.2.2 [("left_thigh", some ⟨(5 : ℚ), 7⟩)] "left_thigh" "roll"
    (by decide) (Or.inr rfl)

/-- C4: the row assembly of `predict_posture` yields no output exactly
when some segment of the snapshot is Unavailable, and succeeds whenever
all ten segments are present, whatever the numeric values. -/
theorem complete_vector_iff :
    ∀ env : SensorId → ReadOutcome,
      (buildRow (readAllImus env) FEATURE_COLS = none
        ↔ ∃ q ∈ readAllImus env, q.2 = none)
      ∧ ((∀ q ∈ readAllImus env, q.2 ≠ none) →
          (buildRow (readAllImus env) FEATURE_COLS).isSome = true) := by
  intro env
  have hsnap : readAllImus env
      = [("left_thigh", resultOf (env (Sum.inl 0))),
         ("left_calf", resultOf (env (Sum.inl 1))),
         ("right_calf", resultOf (env (Sum.inl 2))),
         ("right_thigh", resultOf (env (Sum.inl 3))),
         ("upper_mid_back", resultOf (env (Sum.inl 4))),
         ("upper_back", resultOf (env (Sum.inl 5))),
         ("right_shoulder", resultOf (env (Sum.inl 6))),
         ("left_shoulder", resultOf (env (Sum.inl 7))),
         ("lower_mid_back", resultOf (env (Sum.inr 104))),
         ("lower_back", resultOf (env (Sum.inr 105)))] := by
    simp [readAll_eq_map, SENSOR_SEGMENT_LIST, TCA_CHANNEL_MAP, DIRECT_ADDRESS_MAP]
  rw [hsnap]
  generalize resultOf (env (Sum.inl 0)) = r0
  generalize resultOf (env (Sum.inl 1)) = r1
  generalize resultOf (env (Sum.inl 2)) = r2
  generalize resultOf (env (Sum.inl 3)) = r3
  generalize resultOf (env (Sum.inl 4)) = r4
  generalize resultOf (env (Sum.inl 5)) = r5
  generalize resultOf (env (Sum.inl 6)) = r6
  generalize resultOf (env (Sum.inl 7)) = r7
  generalize resultOf (env (Sum.inr 104)) = r8
  generalize resultOf (env (Sum.inr 105)) = r9
  rcases r0 with _ | a0
  · exact ⟨iff_of_true rfl ⟨("left_thigh", none), by simp, rfl⟩,
      fun hall => absurd (hall ("left_thigh", none) (by simp)) (by simp)⟩
  rcases r1 with _ | a1
  · exact ⟨iff_of_true rfl ⟨("left_calf", none), by simp, rfl⟩,
      fun hall => absurd (hall ("left_calf", none) (by simp)) (by simp)⟩
  rcases r3 with _ | a3
  · exact ⟨iff_of_true rfl ⟨("right_thigh", none), by simp, rfl⟩,
      fun hall => absurd (hall ("right_thigh", none) (by simp)) (by simp)⟩
  rcases r2 with _ | a2
  · exact ⟨iff_of_true rfl ⟨("right_calf", none), by simp, rfl⟩,
      fun hall => absurd (hall ("right_calf", none) (by simp)) (by simp)⟩
  rcases r4 with _ | a4
  · exact ⟨iff_of_true rfl ⟨("upper_mid_back", none), by simp, rfl⟩,
      fun hall => absurd (hall ("upper_mid_back", none) (by simp)) (by simp)⟩
  rcases r5 with _ | a5
  · exact ⟨iff_of_true rfl ⟨("upper_back", none), by simp, rfl⟩,
      fun hall => absurd (hall ("upper_back", none) (by simp)) (by simp)⟩
  rcases r6 with _ | a6
  · exact ⟨iff_of_true rfl ⟨("right_shoulder", none), by simp, rfl⟩,
      fun hall => absurd (hall ("right_shoulder", none) (by simp)) (by simp)⟩
  rcases r7 with _ | a7
  · exact ⟨iff_of_true rfl ⟨("left_shoulder", none), by simp, rfl⟩,
      fun hall => absurd (hall ("left_shoulder", none) (by simp)) (by simp)⟩
  rcases r8 with _ | a8
  · exact ⟨iff_of_true rfl ⟨("lower_mid_back", none), by simp, rfl⟩,
      fun hall => absurd (hall ("lower_mid_back", none) (by simp)) (by simp)⟩
  rcases r9 with _ | a9
  · exact ⟨iff_of_true rfl ⟨("lower_back", none), by simp, rfl⟩,
      fun hall => absurd (hall ("lower_back", none) (by simp)) (by simp)⟩
  have hb : (buildRow
      [("left_thigh", some a0), ("left_calf", some a1), ("right_calf", some a2),
       ("right_thigh", some a3), ("upper_mid_back", some a4), ("upper_back", some a5),
       ("right_shoulder", some a6), ("left_shoulder", some a7),
       ("lower_mid_back", some a8), ("lower_back", some a9)] FEATURE_COLS).isSome = true := rfl
  refine ⟨iff_of_false (fun h => by rw [h] at hb; simp at hb) ?_, fun _ => rfl⟩
  rintro ⟨q, hq, hq2⟩
  simp only [List.mem_cons, List.not_mem_nil, or_false] at hq
  rcases hq with rfl | rfl | rfl | rfl | rfl | rfl | rfl | rfl | rfl | rfl <;>
    simp at hq2

/-- C4 applied: with every sensor read succeeding, the row assembly
succeeds. -/
theorem complete_vector_iff_app :
    (buildRow (readAllImus fun _ => .ok ⟨3, 4⟩) FEATURE_COLS).isSome = true :=
  (complete_vector_iff fun _ => .ok ⟨3, 4⟩).2 (by decide)

/-- Each segment contributes exactly two cells to a capture row. -/
lemma segmentCells_length (rd : Snapshot) (seg : String) :
    (segmentCells rd seg).length = 2 := by
  unfold segmentCells
  cases dictGet rd seg <;> rfl

/-- Indexing a flatMap whose pieces all have length two: positions `2*i`
and `2*i+1` come from the `i`-th piece. -/
lemma flatMap_two_getD {α β : Type} (f : α → List β) (h2 : ∀ a, (f a).length = 2)
    (d : β) :
    ∀ (l : List α) (i : Nat) (h : i < l.length),
      (l.flatMap f).getD (2 * i) d = (f (l.get ⟨i, h⟩)).getD 0 d
        ∧ (l.flatMap f).getD (2 * i + 1) d = (f (l.get ⟨i, h⟩)).getD 1 d := by
  intro l
  induction l with
  | nil => intro i h; simp at h
  | cons a t ih =>
    intro i h
    have hfa : ∃ b0 b1, f a = [b0, b1] := by
      have hl := h2 a
      rcases hfe : f a with _ | ⟨b0, _ | ⟨b1, _ | ⟨c, rest⟩⟩⟩ <;> rw [hfe] at hl <;>
        simp at hl
      exact ⟨b0, b1, rfl⟩
    obtain ⟨b0, b1, hfe⟩ := hfa
    rw [List.flatMap_cons, hfe]
    cases i with
    | zero => exact ⟨by simp [hfe], by simp [hfe]⟩
    | succ j =>
      have e0 : 2 * (j + 1) = 2 * j + 1 + 1 := by ring
      rw [e0]
      simp only [List.cons_append, List.nil_append, List.getD_cons_succ,
        List.get_cons_succ]
      exact ih j (by simpa using h)

/-- C7: a capture row is the timestamp, the label, then exactly twenty
slots: for the `i`-th segment of the fixed list, positions `2+2i` and
`2+2i+1` hold its pitch then roll, or two nulls when it is Unavailable;
and the training feature columns are the capture header minus its first
two columns, built from the identical segment list. -/
theorem capture_row_layout :
    (∀ ts label rd, (captureRow ts label rd).length = 22)
    ∧ (∀ ts label rd, (captureRow ts label rd).getD 0 Cell.null = Cell.num ts
        ∧ (captureRow ts label rd).getD 1 Cell.null = Cell.str label)
    ∧ (∀ ts label rd (i : Nat) (h : i < SEGMENTS.length),
        (captureRow ts label rd).getD (2 + 2 * i) Cell.null
            = (segmentCells rd (SEGMENTS.get ⟨i, h⟩)).getD 0 Cell.null
          ∧ (captureRow ts label rd).getD (2 + 2 * i + 1) Cell.null
            = (segmentCells rd (SEGMENTS.get ⟨i, h⟩)).getD 1 Cell.null)
    ∧ (∀ rd seg, dictGet rd seg = none → segmentCells rd seg = [Cell.null, Cell.null])
    ∧ (∀ rd seg a, dictGet rd seg = some a →
        segmentCells rd seg = [Cell.num a.pitch, Cell.num a.roll])
    ∧ FEATURE_COLS = CSV_HEADER.drop 2
    ∧ TRAIN_SEGMENTS = SEGMENTS := by
  refine ⟨?_, fun ts label rd => ⟨rfl, rfl⟩, ?_, ?_, ?_, rfl, rfl⟩
  · intro ts label rd
    simp [captureRow, List.length_flatMap, segmentCells_length, SEGMENTS]
  · intro ts label rd i h
    have hcast : captureRow ts label rd
        = Cell.num ts :: Cell.str label :: SEGMENTS.flatMap (segmentCells rd) := rfl
    have e0 : 2 + 2 * i = 2 * i + 1 + 1 := by ring
    rw [hcast, e0]
    simp only [List.getD_cons_succ]
    exact flatMap_two_getD (segmentCells rd) (segmentCells_length rd) Cell.null SEGMENTS i h
  · intro rd seg h
    simp [segmentCells, h]
  · intro rd seg a h
    simp [segmentCells, h]

/-- C7 applied: with an empty snapshot, slot `2+2*2` of a concrete row is
the right thigh's first (null) cell. -/
theorem capture_row_layout_app :
    (captureRow 100 "sitting_good" []).getD (2 + 2 * 2) Cell.null
      = (segmentCells [] (SEGMENTS.get ⟨2, by decide⟩)).getD 0 Cell.null :=
  ((capture_row_layout.2.2.1) 100 "sitting_good" [] 2 (by decide)).1

/-- C8 fails on the code: a capture session run when the CSV file already
exists (here: holding just a header) writes only data rows; its first
write is a data row, not a header row. -/
theorem session_header_counterexample :
    sessionWrites (some [headerRow]) "sitting_good" [(0, [])]
        = [captureRow 0 "sitting_good" []]
      ∧ captureRow 0 "sitting_good" [] ≠ headerRow := by
  exact ⟨rfl, by decide⟩

/-- C8 amended: a session's first write is the header exactly when the
file does not yet exist; sessions on an existing file write only data
rows, so the header written at file creation precedes every data row. -/
theorem session_header_amended :
    (∀ label samples, sessionWrites none label samples
        = headerRow :: samples.map fun s => captureRow s.1 label s.2)
    ∧ (∀ rows label samples, sessionWrites (some rows) label samples
        = samples.map fun s => captureRow s.1 label s.2)
    ∧ (∀ label samples, captureSession none label samples
        = some (headerRow :: samples.map fun s => captureRow s.1 label s.2)) := by
  have hfold : ∀ (label : String) (samples : List (ℚ × Snapshot)) (rows : List (List Cell)),
      samples.foldl (fun f s => appendRow f (captureRow s.1 label s.2)) (some rows)
        = some (rows ++ samples.map fun s => captureRow s.1 label s.2) := by
    intro label samples
    induction samples with
    | nil => intro rows; simp
    | cons s t ih =>
      intro rows
      rw [List.foldl_cons]
      have happ : appendRow (some rows) (captureRow s.1 label s.2)
          = some (rows ++ [captureRow s.1 label s.2]) := rfl
      rw [happ, ih]
      simp [List.append_assoc]
  refine ⟨fun label samples => rfl, fun rows label samples => rfl, ?_⟩
  intro label samples
  unfold captureSession writeHeaderIfNeeded
  rw [hfold]
  rfl

/-! ## imu_reader.py compute_angles over the reals (C9) -/

/-- Mathematical `atan2 y x`: the argument of the complex number
`x + y*i`, in `(-π, π]`, the ideal-real model of `math.atan2`. -/
noncomputable def atan2 (y x : ℝ) : ℝ := Complex.arg ⟨x, y⟩

/-- Python `round(x, 3)`: the nearest multiple of `1/1000` (Python breaks
exact ties to even; ties are abstracted here to Mathlib's `round`). -/
noncomputable def round3 (x : ℝ) : ℝ := (round (x * 1000) : ℤ) / 1000

/-- `compute_angles` (imu_reader.py lines 96-108): pitch and roll in
degrees from raw accelerometer components. -/
noncomputable def compute_angles (ax ay az : ℝ) : ℝ × ℝ :=
  (atan2 (-ax) (Real.sqrt (ay * ay + az * az)) * (180 / Real.pi),
   atan2 ay az * (180 / Real.pi))

/-- The pitch/roll pair stored in the reading dict by `read_tca_imu` and
`read_direct_imu` on success (lines 126-128 and 144-146): both computed
angles rounded to 3 decimal digits. -/
noncomputable def storedReading (ax ay az : ℝ) : ℝ × ℝ :=
  (round3 (compute_angles ax ay az).1, round3 (compute_angles ax ay az).2)

/-- Rounding to 3 decimals moves a value by at most `1/2000`. -/
lemma round3_close (x : ℝ) : |round3 x - x| ≤ 1 / 2000 := by
  unfold round3
  have h := abs_sub_round (x * 1000)
  have e : (round (x * 1000) : ℝ) / 1000 - x = ((round (x * 1000) : ℝ) - x * 1000) / 1000 := by
    ring
  rw [e, abs_div, abs_of_pos (by norm_num : (0 : ℝ) < 1000)]
  calc |(round (x * 1000) : ℝ) - x * 1000| / 1000 ≤ (1 / 2) / 1000 := by
        refine (div_le_div_iff_of_pos_right (by norm_num)).mpr ?_
        rw [abs_sub_comm]
        exact h
    _ = 1 / 2000 := by norm_num

/-- C9: for all raw acceleration components the stored angles are
`atan2(-ax, sqrt(ay²+az²))` and `atan2(ay, az)` converted to degrees, each
rounded to 3 decimal digits: exact multiples of `1/1000` within `1/2000`
of the unrounded formulas. -/
theorem angle_formula_and_rounding :
    ∀ ax ay az : ℝ,
      storedReading ax ay az
          = (round3 (atan2 (-ax) (Real.sqrt (ay ^ 2 + az ^ 2)) * (180 / Real.pi)),
             round3 (atan2 ay az * (180 / Real.pi)))
        ∧ (∃ n m : ℤ, storedReading ax ay az = ((n : ℝ) / 1000, (m : ℝ) / 1000))
        ∧ |(storedReading ax ay az).1
            - atan2 (-ax) (Real.sqrt (ay ^ 2 + az ^ 2)) * (180 / Real.pi)| ≤ 1 / 2000
        ∧ |(storedReading ax ay az).2 - atan2 ay az * (180 / Real.pi)| ≤ 1 / 2000 := by
  intro ax ay az
  have hsq : ay * ay + az * az = ay ^ 2 + az ^ 2 := by ring
  have h1 : (storedReading ax ay az).1
      = round3 (atan2 (-ax) (Real.sqrt (ay ^ 2 + az ^ 2)) * (180 / Real.pi)) := by
    unfold storedReading compute_angles
    rw [hsq]
  have h2 : (storedReading ax ay az).2 = round3 (atan2 ay az * (180 / Real.pi)) := rfl
  refine ⟨?_, ?_, ?_, ?_⟩
  · unfold storedReading compute_angles
    rw [hsq]
  · exact ⟨round ((compute_angles ax ay az).1 * 1000),
      round ((compute_angles ax ay az).2 * 1000), rfl⟩
  · rw [h1]
    exact round3_close _
  · rw [h2]
    exact round3_close _

/-- C3: the mode controller admits exactly the claimed transitions: in the
menu, navigate toggles the cursor and select enters the one-shot check
(cursor A) or monitoring (cursor B); a one-shot check always returns to
the menu with cursor A, sensor failure included; monitoring leaves only on
a select press, back to the menu with cursor A; and no other transition
exists. -/
theorem mode_controller_transitions :
    (∀ c, modeStep (.menu c) .nav = some (.menu (!c)))
    ∧ modeStep (.menu false) .sel = some .checking
    ∧ modeStep (.menu true) .sel = some .monitoring
    ∧ (∀ ok, modeStep .checking (.checkDone ok) = some (.menu false))
    ∧ (∀ r, modeStep .monitoring (.monTick true r) = some (.menu false))
    ∧ (∀ r, modeStep .monitoring (.monTick false r) = some .monitoring)
    ∧ (∀ s e s', modeStep s e = some s' →
        (∃ c, s = .menu c ∧ e = .nav ∧ s' = .menu (!c))
        ∨ (s = .menu false ∧ e = .sel ∧ s' = .checking)
        ∨ (s = .menu true ∧ e = .sel ∧ s' = .monitoring)
        ∨ (∃ ok, s = .checking ∧ e = .checkDone ok ∧ s' = .menu false)
        ∨ (∃ r, s = .monitoring ∧ e = .monTick true r ∧ s' = .menu false)
        ∨ (∃ r, s = .monitoring ∧ e = .monTick false r ∧ s' = .monitoring)) := by
  refine ⟨fun c => rfl, rfl, rfl, fun _ => rfl, fun _ => rfl, fun _ => rfl, ?_⟩
  intro s e s' h
  cases s with
  | menu c =>
    cases e with
    | nav =>
      simp only [modeStep, Option.some.injEq] at h
      exact Or.inl ⟨c, rfl, rfl, h.symm⟩
    | sel =>
      cases c with
      | false =>
        simp only [modeStep, Bool.false_eq_true, if_false, Option.some.injEq] at h
        exact Or.inr (Or.inl ⟨rfl, rfl, h.symm⟩)
      | true =>
        simp only [modeStep, if_true, Option.some.injEq] at h
        exact Or.inr (Or.inr (Or.inl ⟨rfl, rfl, h.symm⟩))
    | checkDone ok => simp [modeStep] at h
    | monTick sp r => simp [modeStep] at h
  | checking =>
    cases e with
    | nav => simp [modeStep] at h
    | sel => simp [modeStep] at h
    | checkDone ok =>
      simp only [modeStep, Option.some.injEq] at h
      exact Or.inr (Or.inr (Or.inr (Or.inl ⟨ok, rfl, rfl, h.symm⟩)))
    | monTick sp r => simp [modeStep] at h
  | monitoring =>
    cases e with
    | nav => simp [modeStep] at h
    | sel => simp [modeStep] at h
    | checkDone ok => simp [modeStep] at h
    | monTick sp r =>
      cases sp with
      | true =>
        simp only [modeStep, Option.some.injEq] at h
        exact Or.inr (Or.inr (Or.inr (Or.inr (Or.inl ⟨r, rfl, rfl, h.symm⟩))))
      | false =>
        simp only [modeStep, Option.some.injEq] at h
        exact Or.inr (Or.inr (Or.inr (Or.inr (Or.inr ⟨r, rfl, rfl, h.symm⟩))))

/-- C3 applied: the navigate transition out of `menu A` lands in the
claimed transition set. -/
theorem mode_controller_transitions_app :
    (∃ c, Mode.menu false = Mode.menu c ∧ MCEvent.nav = MCEvent.nav
        ∧ Mode.menu true = Mode.menu (!c))
    ∨ (Mode.menu false = Mode.menu false ∧ MCEvent.nav = MCEvent.sel
        ∧ Mode.menu true = Mode.checking)
    ∨ (Mode.menu false = Mode.menu true ∧ MCEvent.nav = MCEvent.sel
        ∧ Mode.menu true = Mode.monitoring)
    ∨ (∃ ok, Mode.menu false = Mode.checking ∧ MCEvent.nav = MCEvent.checkDone ok
        ∧ Mode.menu true = Mode.menu false)
    ∨ (∃ r, Mode.menu false = Mode.monitoring ∧ MCEvent.nav = MCEvent.monTick true r
        ∧ Mode.menu true = Mode.menu false)
    ∨ (∃ r, Mode.menu false = Mode.monitoring ∧ MCEvent.nav = MCEvent.monTick false r
        ∧ Mode.menu true = Mode.monitoring) :=
  mode_controller_transitions.2.2.2.2.2.2 (Mode.menu false) MCEvent.nav (Mode.menu true) rfl

end PostureCoach
